import Mathlib

/-!
Shallow embedding of `src/views/settings.py` (FixMediaBot): an interactive
settings panel for a chat bot.  Settings are a small polymorphic registry
(`BaseSetting` and its three subclasses), owned by a `SettingsView` that
rebuilds its embed and interactive items on every state change, edits or
sends the outbound message, and keeps at most one delayed auto-delete task.

Stateful Python objects become Lean records with explicit state passing;
the asyncio task set becomes an explicit `Scheduler`; message operations
(`edit_message` / `send_message`) become an `Effect` trace; Python
exceptions (`KeyError` on dict lookup, `TypeError` on a class call with
missing arguments, `IndexError`) become `Option` failure.
-/

namespace FixMediaBot

/-- Modelled from the spec: the translation helper `t` comes from `utils`,
which is repository code not under `src/`.  The spec only calls it display
metadata, and no claim depends on its output, so it is modelled as the
identity on translation keys. -/
def t (key : String) : String := key

/-- Modelled from the spec: `t` called with keyword substitution arguments
(as in `t('settings.fixtweet.content', channel=..., state=...)`); the
substituted values are recorded symbolically next to the key. -/
def tArgs (key : String) (args : List (String × String)) : String :=
  key ++ "(" ++ String.intercalate "," (args.map fun p => p.1 ++ "=" ++ p.2) ++ ")"

/-- Python `str(value).lower()` for a boolean `value`. -/
def pyLower (b : Bool) : String := if b then "true" else "false"

/-- The channel permission bits read by `FixTweetSetting.build_embed`
(`channel.permissions_for(channel.guild.me)`). -/
structure Permissions where
  read_messages : Bool
  send_messages : Bool
  embed_links : Bool
  manage_messages : Bool
deriving DecidableEq

/-- A text channel as used by the module: its guild id, its own id, its
mention string, and the bot's permissions in it. -/
structure Channel where
  guildId : Nat
  id : Nat
  mention : String
  myPerms : Permissions
deriving DecidableEq

/-- External configuration value `discore.config.fixtweet_emoji`. -/
def fixtweet_emoji : String := "🔗"

/-- An embed payload: title, description, and whether
`discore.set_embed_footer` was applied. -/
structure Embed where
  title : String
  description : String
  hasFooter : Bool
deriving DecidableEq

/-- A `discore.SelectOption` payload, as built by `BaseSetting.build_option`. -/
structure SelectOption where
  label : String
  value : String
  description : String
  emoji : Option String
  default : Bool
deriving DecidableEq

/-- Which callback `edit_callback` attached to an item: a setting's
`action` (identified by the setting id the button's `custom_id` carries),
or `SettingsView.select_parameter`. -/
inductive Callback where
  | settingAction (settingId : String)
  | selectParameter
deriving DecidableEq

/-- The button styles used by the module. -/
inductive ButtonStyle where
  | primary
  | secondary
  | green
  | red
deriving DecidableEq

/-- A `discore.ui.Button` payload together with its attached callback. -/
structure Button where
  style : ButtonStyle
  label : String
  custom_id : String
  callback : Callback
deriving DecidableEq

/-- A view item: a button or the parameter-selection select menu. -/
inductive Item where
  | button (b : Button)
  | select (options : List SelectOption) (callback : Callback)
deriving DecidableEq

/-- The three concrete `BaseSetting` subclasses with their per-instance
state: `ClickerSetting.counter`, `ToggleSetting.state`,
`FixTweetSetting.state` plus its stored channel.  `BaseSetting` itself is
abstract (its `action` raises `NotImplementedError`) and is never
instantiated. -/
inductive Setting where
  | clicker (counter : Nat)
  | toggle (state : Bool)
  | fixtweet (state : Bool) (channel : Channel)
deriving DecidableEq

/-- Class attribute `id` of each setting. -/
def Setting.id : Setting → String
  | .clicker _ => "clicker"
  | .toggle _ => "toggle"
  | .fixtweet _ _ => "fixtweet"

/-- Class attribute `name` of each setting. -/
def Setting.name : Setting → String
  | .clicker _ => "Clicker"
  | .toggle _ => "Toggle"
  | .fixtweet _ _ => "settings.fixtweet.name"

/-- Class attribute `description` of each setting. -/
def Setting.description : Setting → String
  | .clicker _ => "A simple clicker game"
  | .toggle _ => "Toggle the setting"
  | .fixtweet _ _ => "settings.fixtweet.description"

/-- Class attribute `emoji` of each setting (`Optional[str]` on the base). -/
def Setting.emoji : Setting → Option String
  | .clicker _ => some "👆"
  | .toggle _ => some "🔄"
  | .fixtweet _ _ => some fixtweet_emoji

/-- Python `self.__class__.__name__`. -/
def pyClassName : Setting → String
  | .clicker _ => "ClickerSetting"
  | .toggle _ => "ToggleSetting"
  | .fixtweet _ _ => "FixTweetSetting"

/-- Source `BaseSetting.build_embed`: title is `emoji + " " + t(name)` when an
emoji is set, else `t(name)`; description is `t(description)`; then
`set_embed_footer` is applied. -/
def BaseSetting.base_build_embed (s : Setting) : Embed :=
  { title :=
      match s.emoji with
      | some e => e ++ " " ++ t s.name
      | none => t s.name
    description := t s.description
    hasFooter := true }

/-- The `build_embed` of each concrete setting.  `ToggleSetting` does not
override it and inherits `BaseSetting.build_embed`; `ClickerSetting` and
`FixTweetSetting` override it. -/
def Setting.build_embed : Setting → Embed
  | .clicker counter =>
      { title := "👆" ++ " " ++ "Clicker"
        description := "A simple clicker game" ++
          (if counter > 0 then
            "\n**You clicked " ++ toString counter ++ " times**"
          else "")
        hasFooter := true }
  | .toggle state => BaseSetting.base_build_embed (.toggle state)
  | .fixtweet state channel =>
      { title := fixtweet_emoji ++ " " ++ t "settings.fixtweet.name"
        description :=
          tArgs "settings.fixtweet.content"
            [("channel", channel.mention),
             ("state", t ("settings.fixtweet.state." ++ pyLower state))] ++
          String.intercalate "\n"
            [t ("settings.fixtweet.perm.read." ++ pyLower channel.myPerms.read_messages),
             t ("settings.fixtweet.perm.send." ++ pyLower channel.myPerms.send_messages),
             t ("settings.fixtweet.perm.embed." ++ pyLower channel.myPerms.embed_links),
             t ("settings.fixtweet.perm.manage." ++ pyLower channel.myPerms.manage_messages)]
        hasFooter := true }

/-- Source `BaseSetting.build_option` (no subclass overrides it): label and
description are translated, the value is the setting id, and `default`
is the `selected` argument. -/
def Setting.build_option (s : Setting) (selected : Bool) : SelectOption :=
  { label := t s.name
    value := s.id
    description := t s.description
    emoji := s.emoji
    default := selected }

/-- Source `BaseSetting.build_action`: a single primary button labelled with the
translated name, `custom_id` the setting id, callback the setting's
`action`.  All three concrete subclasses override this; kept for fidelity. -/
def BaseSetting.base_build_action (s : Setting) : List Item :=
  [.button { style := .primary, label := t s.name, custom_id := s.id,
             callback := .settingAction s.id }]

/-- The `build_action` of each concrete setting (each returns one button wired
by `edit_callback` to that setting's `action`). -/
def Setting.build_action : Setting → List Item
  | .clicker counter =>
      [.button { style := .primary
                 label := "Clicker" ++ " (" ++ toString counter ++ ")"
                 custom_id := "clicker"
                 callback := .settingAction "clicker" }]
  | .toggle state =>
      [.button { style := if state then .green else .red
                 label := "Toggle" ++ " " ++ (if state then "ON" else "OFF")
                 custom_id := "toggle"
                 callback := .settingAction "toggle" }]
  | .fixtweet state _ =>
      [.button { style := if state then .primary else .secondary
                 label := t ("settings.fixtweet.button." ++ pyLower state)
                 custom_id := "fixtweet"
                 callback := .settingAction "fixtweet" }]

/-- A write to the external durable store, as performed by
`TextChannel.find(channel.id).update({'fix_twitter': state})`. -/
structure DbWrite where
  channelId : Nat
  fix_twitter : Bool
deriving DecidableEq

/-- The state mutation and store writes each setting's `action` performs on
`self` before its single `await view.refresh(interaction)` (the refresh
call itself is made by `SettingsView.runSettingAction` below):
`ClickerSetting.action` increments `counter`, `ToggleSetting.action`
negates `state`, `FixTweetSetting.action` negates `state` and writes the
new state to the durable store. -/
def Setting.action_update : Setting → Setting × List DbWrite
  | .clicker counter => (.clicker (counter + 1), [])
  | .toggle state => (.toggle (!state), [])
  | .fixtweet state channel =>
      (.fixtweet (!state) channel, [{ channelId := channel.id, fix_twitter := !state }])

/-- The concrete subclasses of `BaseSetting`, standing for the Python class
objects themselves (`Type[BaseSetting]`). -/
inductive SettingCls where
  | clicker
  | toggle
  | fixtweet
deriving DecidableEq

/-- Class attribute `id` read on the class object. -/
def SettingCls.id : SettingCls → String
  | .clicker => "clicker"
  | .toggle => "toggle"
  | .fixtweet => "fixtweet"

/-- Calling the class with no arguments, `s()`, as `dict_from_settings`
does for class entries: `ClickerSetting()` starts the counter at 0,
`ToggleSetting()` starts unset; `FixTweetSetting()` raises `TypeError`
because its `__init__` requires a channel argument. -/
def SettingCls.instantiate : SettingCls → Option Setting
  | .clicker => some (.clicker 0)
  | .toggle => some (.toggle false)
  | .fixtweet => none

/-- Python `BaseSetting.__subclasses__()` in class-definition order. -/
def BaseSetting.subclasses : List SettingCls := [.clicker, .toggle, .fixtweet]

/-- Source `BaseSetting.cls_from_id`: scan `__subclasses__()` in order and return
the first class whose `id` equals the argument, else `None`. -/
def BaseSetting.cls_from_id (id : String) : Option SettingCls :=
  BaseSetting.subclasses.find? fun setting => setting.id == id

/-- An element of the iterable given to `dict_from_settings`: either an
instance or a class (`BaseSetting | Type[BaseSetting]`). -/
inductive SettingSpec where
  | inst (s : Setting)
  | cls (c : SettingCls)
deriving DecidableEq

/-- Python `s.id` read on an element, an instance attribute lookup falling back to
the class attribute. -/
def SettingSpec.id : SettingSpec → String
  | .inst s => s.id
  | .cls c => c.id

/-- Python `s() if isinstance(s, type) else s`. -/
def SettingSpec.resolve : SettingSpec → Option Setting
  | .inst s => some s
  | .cls c => c.instantiate

/-- Python `dict` assignment `d[k] = v`: overwrite in place when the key
exists (keeping its original position), append otherwise. -/
def dictInsert (d : List (String × Setting)) (k : String) (v : Setting) :
    List (String × Setting) :=
  if d.any fun p => p.1 == k then
    d.map fun p => if p.1 == k then (k, v) else p
  else d ++ [(k, v)]

/-- Python `d[k]` dict lookup, `none` standing for `KeyError`. -/
def dictGet (d : List (String × Setting)) (k : String) : Option Setting :=
  (d.find? fun p => p.1 == k).map fun p => p.2

/-- Source `BaseSetting.dict_from_settings`: the dict comprehension
`{s.id: (s() if isinstance(s, type) else s) for s in settings}`;
`none` when a class entry's no-argument call raises. -/
def BaseSetting.dict_from_settings (settings : List SettingSpec) :
    Option (List (String × Setting)) :=
  settings.foldlM (fun d s => do
    let v ← s.resolve
    pure (dictInsert d s.id v)) []

/-- Python exceptions relevant to `_message_delete_after`:
`discore.HTTPException`, `asyncio.CancelledError`, and any other exception
class (carried by name). -/
inductive PyExn where
  | httpException
  | cancelledError
  | otherError (clsName : String)
deriving DecidableEq

/-- Whether the `except (discore.HTTPException, asyncio.CancelledError)`
clause catches the exception. -/
def caughtByHandler : PyExn → Bool
  | .httpException => true
  | .cancelledError => true
  | .otherError _ => false

/-- Source `SettingsView._message_delete_after`: sleep, then delete the original
response, with the whole body under a try/except that swallows
`HTTPException` and `CancelledError`.  The two arguments are the outcomes
of the two awaits (`none` = returned normally, `some e` = raised `e`; the
delete is only reached when the sleep returns normally), and the result is
the exception the task propagates, if any. -/
def message_delete_after (sleepOutcome deleteOutcome : Option PyExn) : Option PyExn :=
  match sleepOutcome with
  | some e => if caughtByHandler e then none else some e
  | none =>
      match deleteOutcome with
      | some e => if caughtByHandler e then none else some e
      | none => none

/-- The interaction a callback receives: whether it carries a message
(`interaction.message`, a message id when present) and its channel. -/
structure Interaction where
  message : Option Nat
  channel : Channel
deriving DecidableEq

/-- The set of asyncio tasks this view has created, indexed by creation
order; an entry is `true` once `cancel()` was called on it. -/
structure Scheduler where
  tasks : List Bool
deriving DecidableEq

/-- Python `task.cancel()`. -/
def Scheduler.cancel (s : Scheduler) (tid : Nat) : Scheduler :=
  ⟨s.tasks.set tid true⟩

/-- Python `asyncio.create_task(...)`: a fresh, not-cancelled task; returns its id. -/
def Scheduler.create (s : Scheduler) : Nat × Scheduler :=
  (s.tasks.length, ⟨s.tasks ++ [false]⟩)

/-- A task whose countdown is still pending (created, never cancelled). -/
def Scheduler.pending (s : Scheduler) (tid : Nat) : Prop :=
  s.tasks[tid]? = some false

instance (s : Scheduler) (tid : Nat) : Decidable (s.pending tid) := by
  unfold Scheduler.pending
  infer_instance

/-- A message operation performed by `refresh`: edit the interaction's
message, or send a new message, each carrying the view's embed. -/
inductive Effect where
  | editMessage (embed : Option Embed)
  | sendMessage (embed : Option Embed) (ephemeral : Bool)
deriving DecidableEq

/-- The `SettingsView` state: the vestigial `selected` field, the selected
setting id, the settings dict, the last-built embed, the pending delete
task handle, the stored channel, and the view's items
(`discore.ui.View.clear_items` / `add_item` state). -/
structure View where
  selected : Option SettingCls
  selected_id : Option String
  settings : List (String × Setting)
  embed : Option Embed
  timeout_task : Option Nat
  channel : Channel
  items : List Item
deriving DecidableEq

/-- Modelled from the spec: `is_fixtweet_enabled` from `utils` (repository
code not under `src/`) reads the external durable store's boolean flag
keyed by guild id and channel id; the store is passed in as a function. -/
def is_fixtweet_enabled (store : Nat → Nat → Bool) (guildId channelId : Nat) : Bool :=
  store guildId channelId

/-- Source `FixTweetSetting.__init__(channel)`: read the stored flag, keep the
channel. -/
def FixTweetSetting.init (store : Nat → Nat → Bool) (channel : Channel) : Setting :=
  .fixtweet (is_fixtweet_enabled store channel.guildId channel.id) channel

/-- Source `SettingsView.__init__(i, channel)`: no selection, settings dict built
from a single `FixTweetSetting(i.channel)` instance, no embed, no pending
task, empty item list. -/
def SettingsView.init (store : Nat → Nat → Bool) (i : Interaction) (channel : Channel) :
    Option View := do
  let settings ← BaseSetting.dict_from_settings [.inst (FixTweetSetting.init store i.channel)]
  pure { selected := none
         selected_id := none
         settings := settings
         embed := none
         timeout_task := none
         channel := channel
         items := [] }

/-- Source `SettingsView._build_items`: clear the items; when a setting is
selected (`is not None`), add its `build_action` items (a `KeyError`,
i.e. `none`, when the id is not a key); then one `build_option` per
setting in dict order, `default` flagging `setting_id == self.selected_id`;
finally the select menu wired to `select_parameter`.  Returns the new item
list. -/
def View.build_items (v : View) : Option (List Item) := do
  let actionItems ←
    match v.selected_id with
    | some sid => (dictGet v.settings sid).map Setting.build_action
    | none => pure []
  let options := v.settings.map fun p => p.2.build_option (some p.1 == v.selected_id)
  pure (actionItems ++ [Item.select options .selectParameter])

/-- The default overview embed built inside `SettingsView.build`. -/
def default_embed : Embed :=
  { title := t "settings.title", description := t "settings.description", hasFooter := true }

/-- The embed expression of `SettingsView.build`:
`self.settings[self.selected_id].build_embed(...) if self.selected_id else
default_embed` — note Python truthiness: `None` and the empty string both
fall to the default embed. -/
def View.buildEmbed (v : View) : Option Embed :=
  match v.selected_id with
  | some sid =>
      if sid.isEmpty then some default_embed
      else (dictGet v.settings sid).map Setting.build_embed
  | none => some default_embed

/-- Source `SettingsView.build`: rebuild the items, then set the embed. -/
def View.build (v : View) : Option View := do
  let items ← v.build_items
  let e ← v.buildEmbed
  pure { v with items := items, embed := some e }

/-- Source `SettingsView.refresh`: build; edit the interaction's message when it
has one, otherwise send a new ephemeral message; cancel the stored delete
task if any; create and store a fresh delete task.  Returns the new view,
the new task state, and the one message operation performed. -/
def View.refresh (v : View) (i : Interaction) (sch : Scheduler) :
    Option (View × Scheduler × Effect) := do
  let v1 ← v.build
  let eff :=
    match i.message with
    | some _ => Effect.editMessage v1.embed
    | none => Effect.sendMessage v1.embed true
  let sch1 :=
    match v1.timeout_task with
    | some tid => sch.cancel tid
    | none => sch
  let created := sch1.create
  pure ({ v1 with timeout_task := some created.1 }, created.2, eff)

/-- Alias `send = refresh` at class level. -/
def View.send : View → Interaction → Scheduler → Option (View × Scheduler × Effect) :=
  View.refresh

/-- Source `SettingsView.select_parameter`: store `select.values[0]` as the
selected id (`none` models the `IndexError` on an empty values list), then
refresh. -/
def View.select_parameter (v : View) (i : Interaction) (values : List String)
    (sch : Scheduler) : Option (View × Scheduler × Effect) := do
  let val ← values.head?
  View.refresh { v with selected_id := some val } i sch

/-- Invoking the `action` callback of the setting stored under `sid`: the
setting mutates its own state (and possibly the durable store), then
awaits `view.refresh` once.  Returns the new view and task state, the list
of message operations of the refresh calls made (one entry per refresh
call), and the store writes. -/
def View.runSettingAction (v : View) (i : Interaction) (sch : Scheduler) (sid : String) :
    Option (View × Scheduler × List Effect × List DbWrite) := do
  let s ← dictGet v.settings sid
  let upd := s.action_update
  let v1 := { v with settings := dictInsert v.settings sid upd.1 }
  let r ← v1.refresh i sch
  pure (r.1, r.2.1, [r.2.2], upd.2)

/-- Iterated `refresh` over a list of incoming interactions. -/
def refreshSeq (v : View) (sch : Scheduler) : List Interaction → Option (View × Scheduler)
  | [] => pure (v, sch)
  | i :: rest => do
      let r ← v.refresh i sch
      refreshSeq r.1 r.2.1 rest

/-- The message the runtime `__eq__` raises `TypeError` with. -/
def eqErrorMsg (self : Setting) (otherCls : String) : String :=
  "Cannot compare " ++ pyClassName self ++ " with " ++ otherCls

/-- An operand of `BaseSetting.__eq__`: a string, a setting instance, or
any other object (carried by class name). -/
inductive EqOperand where
  | str (s : String)
  | setting (s : Setting)
  | other (clsName : String)
deriving DecidableEq

/-- Python `other.__class__.__name__`. -/
def EqOperand.clsName : EqOperand → String
  | .str _ => "str"
  | .setting s => pyClassName s
  | .other n => n

/-- Runtime `BaseSetting.__eq__` as it exists at runtime.  The two `@overload`
definitions above it are `typing` declarations only: each is replaced by
the next `def` of the same name, so the final, unconditionally raising body
is the one bound on the class.  `Except.error` carries the `TypeError`
message. -/
def BaseSetting.eq (self : Setting) (other : EqOperand) : Except String Bool :=
  .error (eqErrorMsg self other.clsName)

/-- Source `BaseSetting.__hash__`: hash of the id string (modelled as the id
itself, injectively, since Python's string hash is opaque). -/
def BaseSetting.hashKey (self : Setting) : String := self.id

/-- The cleanup-task invariant of a view: every still-pending task this
view created is the one currently stored in `timeout_task`. -/
def TaskInv (v : View) (sch : Scheduler) : Prop :=
  ∀ tid, sch.pending tid → v.timeout_task = some tid

/-- A concrete channel for instantiating the theorems below. -/
def sampleChannel : Channel :=
  { guildId := 1, id := 2, mention := "#general",
    myPerms := { read_messages := true, send_messages := true,
                 embed_links := true, manage_messages := false } }

/-- A concrete durable-store state: fixtweet disabled everywhere. -/
def sampleStore : Nat → Nat → Bool := fun _ _ => false

/-- An interaction that already carries a bot message. -/
def msgInteraction : Interaction := { message := some 7, channel := sampleChannel }

/-- An interaction with no message yet. -/
def freshInteraction : Interaction := { message := none, channel := sampleChannel }

/-- A concrete settings dict holding all three settings. -/
def sampleSettings : List (String × Setting) :=
  [("clicker", .clicker 0), ("toggle", .toggle false),
   ("fixtweet", .fixtweet false sampleChannel)]

/-- A concrete view with the clicker setting selected. -/
def sampleView : View :=
  { selected := none, selected_id := some "clicker", settings := sampleSettings,
    embed := none, timeout_task := none, channel := sampleChannel, items := [] }

/-- A concrete view with no selection and a pending cleanup task with id 0. -/
def pendingView : View :=
  { sampleView with selected_id := none, timeout_task := some 0 }

/-- Fallback view for extracting concrete computation results. -/
def fallbackView : View :=
  { selected := none, selected_id := none, settings := [], embed := none,
    timeout_task := none, channel := sampleChannel, items := [] }

/-- Fallback refresh result for extracting concrete computation results. -/
def fallbackOut : View × Scheduler × Effect := (fallbackView, ⟨[]⟩, .editMessage none)

/-- The concrete result of refreshing `pendingView` on an interaction with
a message, starting from one pending task. -/
def pendingRefreshOut : View × Scheduler × Effect :=
  (pendingView.refresh msgInteraction ⟨[false]⟩).getD fallbackOut

/-- The concrete view built by `SettingsView.__init__` on the sample data. -/
def initOut : View :=
  (SettingsView.init sampleStore freshInteraction sampleChannel).getD fallbackView

/-- The concrete result of two refreshes from the freshly built view. -/
def seqOut : View × Scheduler :=
  (refreshSeq initOut ⟨[]⟩ [freshInteraction, msgInteraction]).getD (fallbackView, ⟨[]⟩)

/-- The concrete result of building the sample view. -/
def builtSample : View := sampleView.build.getD fallbackView

/-- The sample view before anything is selected. -/
def noselView : View := { sampleView with selected_id := none }

/-- The concrete result of selecting "toggle" on the unselected view. -/
def selOut : View × Scheduler × Effect :=
  (noselView.select_parameter msgInteraction ["toggle"] ⟨[]⟩).getD fallbackOut

/-- The concrete item list built for the sample view. -/
def itemsOut : List Item := sampleView.build_items.getD []

/-- The concrete result of clicking the clicker button on the sample view. -/
def actionOut : View × Scheduler × List Effect × List DbWrite :=
  (sampleView.runSettingAction msgInteraction ⟨[]⟩ "clicker").getD
    (fallbackView, ⟨[]⟩, [], [])

/-- A concrete dict built from one instance and one class. -/
def dC8 : List (String × Setting) :=
  (BaseSetting.dict_from_settings [.inst (.clicker 0), .cls .toggle]).getD []

/-- Cancelling the stored task handle, if any (the conditional cancel done
by `refresh` before it creates the replacement task). -/
def cancelStored (stored : Option Nat) (sch : Scheduler) : Scheduler :=
  match stored with
  | some tid => sch.cancel tid
  | none => sch

theorem cancelStored_none (sch : Scheduler) : cancelStored none sch = sch := rfl

theorem cancelStored_some (t0 : Nat) (sch : Scheduler) :
    cancelStored (some t0) sch = sch.cancel t0 := rfl

theorem cancelStored_length (stored : Option Nat) (sch : Scheduler) :
    (cancelStored stored sch).tasks.length = sch.tasks.length := by
  cases stored <;> simp [cancelStored, Scheduler.cancel, List.length_set]

theorem getElem?_append_singleton {α : Type} (l : List α) (a b : α) (tid : Nat)
    (h : (l ++ [a])[tid]? = some b) : l[tid]? = some b ∨ (tid = l.length ∧ b = a) := by
  rw [List.getElem?_append] at h
  split at h
  · exact Or.inl h
  · rename_i hge
    have hlen : l.length ≤ tid := Nat.le_of_not_lt hge
    rcases hd : tid - l.length with _ | k
    · rw [hd] at h
      simp only [List.getElem?_cons_zero, Option.some.injEq] at h
      exact Or.inr ⟨by omega, h.symm⟩
    · rw [hd] at h
      simp at h

theorem cancel_lookup (sch : Scheduler) (t0 tid : Nat)
    (h : (sch.cancel t0).tasks[tid]? = some false) :
    sch.tasks[tid]? = some false ∧ tid ≠ t0 := by
  unfold Scheduler.cancel at h
  simp only [List.getElem?_set] at h
  split at h
  · split at h <;> simp at h
  · rename_i hne
    exact ⟨h, fun he => hne (he ▸ rfl)⟩

/-- Lemma: `build` only rewrites `items` and `embed`; every other view field is
untouched. -/
theorem build_fields (v vb : View) (h : v.build = some vb) :
    vb.timeout_task = v.timeout_task ∧ vb.settings = v.settings ∧
    vb.selected_id = v.selected_id := by
  simp only [View.build, bind, Option.bind_eq_some, pure, Option.some.injEq] at h
  obtain ⟨items, _, e, _, hv⟩ := h
  subst hv
  exact ⟨rfl, rfl, rfl⟩

/-- Shape of a successful `refresh`: the built view with a fresh task id
stored, the schedule with the old task cancelled and a new pending one
appended, and the single message operation. -/
theorem refresh_eq (v : View) (i : Interaction) (sch : Scheduler)
    (out : View × Scheduler × Effect) (h : v.refresh i sch = some out) :
    ∃ vb, v.build = some vb ∧
      out.1 = { vb with timeout_task := some (cancelStored vb.timeout_task sch).tasks.length } ∧
      out.2.1 = ⟨(cancelStored vb.timeout_task sch).tasks ++ [false]⟩ ∧
      out.2.2 = (match i.message with
              | some _ => Effect.editMessage vb.embed
              | none => Effect.sendMessage vb.embed true) := by
  simp only [View.refresh, Scheduler.create, bind, Option.bind_eq_some, pure,
    Option.some.injEq] at h
  obtain ⟨vb, hb, hout⟩ := h
  refine ⟨vb, hb, ?_, ?_, ?_⟩ <;> (rw [← hout]; try rfl)

/-- A single `refresh` preserves the cleanup-task invariant. -/
theorem taskInv_refresh (v : View) (i : Interaction) (sch : Scheduler)
    (out : View × Scheduler × Effect) (hinv : TaskInv v sch)
    (h : v.refresh i sch = some out) : TaskInv out.1 out.2.1 := by
  obtain ⟨vb, hb, h1, h2, _⟩ := refresh_eq v i sch out h
  have hto : vb.timeout_task = v.timeout_task := (build_fields v vb hb).1
  intro tid hpend
  unfold Scheduler.pending at hpend
  rw [h2] at hpend
  rw [h1]
  show some (cancelStored vb.timeout_task sch).tasks.length = some tid
  rcases hvt : vb.timeout_task with _ | t0
  · rw [hvt] at hpend
    rw [cancelStored_none] at hpend ⊢
    rcases getElem?_append_singleton _ _ _ _ hpend with hold | ⟨he, _⟩
    · have hv0 : v.timeout_task = none := by rw [← hto, hvt]
      have := hinv tid hold
      rw [hv0] at this
      exact absurd this (by simp)
    · rw [he]
  · rw [hvt] at hpend
    rw [cancelStored_some] at hpend ⊢
    rcases getElem?_append_singleton _ _ _ _ hpend with hold | ⟨he, _⟩
    · obtain ⟨hold2, hne⟩ := cancel_lookup sch t0 tid hold
      have hv0 : v.timeout_task = some t0 := by rw [← hto, hvt]
      have := hinv tid hold2
      rw [hv0] at this
      exact absurd (Option.some.inj this).symm hne
    · rw [he]

/-- The cleanup-task invariant is preserved by any sequence of refreshes. -/
theorem taskInv_refreshSeq (ints : List Interaction) :
    ∀ (v : View) (sch : Scheduler) (v2 : View) (s2 : Scheduler),
      TaskInv v sch → refreshSeq v sch ints = some (v2, s2) → TaskInv v2 s2 := by
  induction ints with
  | nil =>
    intro v sch v2 s2 hinv h
    simp only [refreshSeq, pure, Option.some.injEq, Prod.mk.injEq] at h
    obtain ⟨hv, hs⟩ := h
    subst hv
    subst hs
    exact hinv
  | cons i rest ih =>
    intro v sch v2 s2 hinv h
    simp only [refreshSeq, bind, Option.bind_eq_some] at h
    obtain ⟨r, hr, hrec⟩ := h
    exact ih r.1 r.2.1 v2 s2 (taskInv_refresh v i sch r hinv hr) hrec

/-- A freshly constructed view satisfies the invariant against the empty
schedule. -/
theorem taskInv_init (store : Nat → Nat → Bool) (i0 : Interaction) (ch : Channel)
    (v0 : View) (h : SettingsView.init store i0 ch = some v0) : TaskInv v0 ⟨[]⟩ := by
  intro tid hpend
  unfold Scheduler.pending at hpend
  simp at hpend

/-- A boolean list whose `false` positions all coincide holds at most one
`false`. -/
theorem count_false_le_one (l : List Bool)
    (h : ∀ i j : Nat, l[i]? = some false → l[j]? = some false → i = j) :
    l.count false ≤ 1 := by
  induction l with
  | nil => simp
  | cons a tl ih =>
    have htl : ∀ i j : Nat, tl[i]? = some false → tl[j]? = some false → i = j := by
      intro i j hi hj
      have := h (i + 1) (j + 1) (by simpa using hi) (by simpa using hj)
      omega
    cases a with
    | false =>
      have hz : tl.count false = 0 := by
        rw [List.count_eq_zero]
        intro hmem
        obtain ⟨n, hn⟩ := List.mem_iff_getElem?.mp hmem
        have := h 0 (n + 1) (by simp) (by simpa using hn)
        omega
      simp [List.count_cons, hz]
    | true =>
      have := ih htl
      simp only [List.count_cons]
      simp
      omega

/-- C1: every `refresh` call first cancels the stored cleanup task handle
(when one is stored) and only then creates and stores a new pending one;
consequently, starting from a freshly constructed `SettingsView`, after
any sequence of `refresh` calls at most one cleanup countdown is pending. -/
theorem refresh_at_most_one_pending_cleanup :
    (∀ (v : View) (i : Interaction) (sch : Scheduler) (out : View × Scheduler × Effect),
      v.refresh i sch = some out →
      (∀ tid, v.timeout_task = some tid → tid < sch.tasks.length →
        out.2.1.tasks[tid]? = some true) ∧
      out.1.timeout_task = some sch.tasks.length ∧
      out.2.1.tasks[sch.tasks.length]? = some false) ∧
    (∀ (store : Nat → Nat → Bool) (i0 : Interaction) (ch : Channel) (v0 : View)
      (ints : List Interaction) (v2 : View) (s2 : Scheduler),
      SettingsView.init store i0 ch = some v0 →
      refreshSeq v0 ⟨[]⟩ ints = some (v2, s2) →
      s2.tasks.count false ≤ 1) := by
  constructor
  · intro v i sch out h
    obtain ⟨vb, hb, h1, h2, _⟩ := refresh_eq v i sch out h
    have hto : vb.timeout_task = v.timeout_task := (build_fields v vb hb).1
    refine ⟨?_, ?_, ?_⟩
    · intro tid hstored hlt
      rw [h2]
      have hvt : vb.timeout_task = some tid := hto.trans hstored
      rw [hvt, cancelStored_some]
      show ((sch.tasks.set tid true) ++ [false])[tid]? = some true
      rw [List.getElem?_append]
      simp [List.length_set, hlt, List.getElem?_set]
    · rw [h1]
      show some (cancelStored vb.timeout_task sch).tasks.length = some sch.tasks.length
      rw [cancelStored_length]
    · rw [h2]
      show ((cancelStored vb.timeout_task sch).tasks ++ [false])[sch.tasks.length]? = some false
      rw [← cancelStored_length vb.timeout_task sch]
      exact List.getElem?_concat_length _ _
  · intro store i0 ch v0 ints v2 s2 hinit hseq
    have hinv := taskInv_refreshSeq ints v0 ⟨[]⟩ v2 s2 (taskInv_init store i0 ch v0 hinit) hseq
    apply count_false_le_one
    intro i j hi hj
    have h1 := hinv i hi
    have h2 := hinv j hj
    rw [h1] at h2
    exact Option.some.inj h2

/-- Witness for C1: refreshing a view holding task 0 cancels task 0, and
after two refreshes from a fresh view exactly one task remains pending. -/
theorem refresh_at_most_one_pending_cleanup_witness :
    pendingRefreshOut.2.1.tasks[0]? = some true ∧ seqOut.2.tasks.count false ≤ 1 := by
  constructor
  · exact (refresh_at_most_one_pending_cleanup.1 pendingView msgInteraction ⟨[false]⟩
      pendingRefreshOut (by decide)).1 0 rfl (by decide)
  · exact refresh_at_most_one_pending_cleanup.2 sampleStore freshInteraction sampleChannel
      initOut [freshInteraction, msgInteraction] seqOut.1 seqOut.2 (by decide) (by decide)

/-- C2: the delayed cleanup task propagates no exception: whatever outcome
the sleep and the delete have, as long as each raises only
`discore.HTTPException` or `asyncio.CancelledError` (the two exception
classes that can arise there, and exactly the two named by the except
clause), `_message_delete_after` swallows it and returns normally. -/
theorem message_delete_after_never_raises :
    ∀ (s d : Option PyExn),
      (∀ e, s = some e → caughtByHandler e = true) →
      (∀ e, d = some e → caughtByHandler e = true) →
      message_delete_after s d = none := by
  intro s d hs hd
  cases s with
  | some e => simp [message_delete_after, hs e rfl]
  | none =>
    cases d with
    | some e => simp [message_delete_after, hd e rfl]
    | none => rfl

/-- Witness for C2: a cancelled sleep, and a delete hitting an already
deleted message, are both swallowed. -/
theorem message_delete_after_never_raises_witness :
    message_delete_after (some .cancelledError) none = none ∧
    message_delete_after none (some .httpException) = none :=
  ⟨message_delete_after_never_raises (some .cancelledError) none
      (by intro e he; cases he; rfl) (by intro e he; cases he),
    message_delete_after_never_raises none (some .httpException)
      (by intro e he; cases he) (by intro e he; cases he; rfl)⟩

/-- C9: the runtime `BaseSetting.__eq__` raises `TypeError` on every
operand — string, setting, or anything else — because the `@overload`
bodies do not exist at runtime and the final definition unconditionally
raises; it never returns a boolean. -/
theorem baseSetting_eq_always_raises :
    ∀ (self : Setting) (other : EqOperand),
      BaseSetting.eq self other = .error (eqErrorMsg self other.clsName) ∧
      (BaseSetting.eq self other).isOk = false :=
  fun _ _ => ⟨rfl, rfl⟩

/-- The three subclass ids are pairwise distinct, so `id` is injective on
classes. -/
theorem settingClsId_inj : ∀ a b : SettingCls, a.id = b.id → a = b := by
  intro a b h
  cases a <;> cases b <;> first | rfl | exact absurd h (by decide)

/-- C10: `cls_from_id` returns the first (here: unique) subclass of
`BaseSetting` whose class-level `id` equals the argument, and `none` when
no subclass has that id. -/
theorem cls_from_id_first_match :
    ∀ (idStr : String),
      (∀ c, BaseSetting.cls_from_id idStr = some c →
        c.id = idStr ∧ ∀ c2 ∈ BaseSetting.subclasses, c2.id = idStr → c2 = c) ∧
      (BaseSetting.cls_from_id idStr = none →
        ∀ c ∈ BaseSetting.subclasses, c.id ≠ idStr) := by
  intro idStr
  constructor
  · intro c hc
    have hp := List.find?_some hc
    have hcid : c.id = idStr := by simpa using hp
    refine ⟨hcid, ?_⟩
    intro c2 _ h2
    exact settingClsId_inj c2 c (h2.trans hcid.symm)
  · intro hn c hcmem hcid
    have := List.find?_eq_none.mp hn c hcmem
    simp [hcid] at this

/-- Witness for C10: looking up "toggle" finds `ToggleSetting`, whose id is
"toggle"; looking up "unknown" finds nothing. -/
theorem cls_from_id_first_match_witness :
    SettingCls.id .toggle = "toggle" ∧ SettingCls.id .clicker ≠ "unknown" :=
  ⟨((cls_from_id_first_match "toggle").1 .toggle (by decide)).1,
    (cls_from_id_first_match "unknown").2 (by decide) .clicker (by decide)⟩

/-- Shape of a successful `build`: the rebuilt items, the rebuilt embed,
all other fields untouched. -/
theorem build_eq (v vb : View) (h : v.build = some vb) :
    ∃ items e, v.build_items = some items ∧ v.buildEmbed = some e ∧
      vb = { v with items := items, embed := some e } := by
  simp only [View.build, bind, Option.bind_eq_some, pure, Option.some.injEq] at h
  obtain ⟨items, hi, e, he, hv⟩ := h
  exact ⟨items, e, hi, he, hv.symm⟩

/-- Lemma: `_build_items` with a selected setting present in the dict: that
setting's action items, then the select menu with one option per setting. -/
theorem build_items_some (v : View) (sid : String) (s : Setting)
    (hsel : v.selected_id = some sid) (hget : dictGet v.settings sid = some s) :
    v.build_items = some (s.build_action ++
      [Item.select (v.settings.map fun p => p.2.build_option (p.1 == sid))
        .selectParameter]) := by
  unfold View.build_items
  rw [hsel]
  simp only [hget, Option.map_some, bind, Option.some_bind]
  rfl

/-- Lemma: `_build_items` with no selection: just the select menu, nothing marked
default. -/
theorem build_items_nosel (v : View) (hsel : v.selected_id = none) :
    v.build_items = some
      [Item.select (v.settings.map fun p => p.2.build_option false) .selectParameter] := by
  unfold View.build_items
  rw [hsel]
  rfl

/-- The embed expression of `build` with a (truthy) selected id present in
the dict is that setting's embed. -/
theorem buildEmbed_some (v : View) (sid : String) (s : Setting)
    (hsel : v.selected_id = some sid) (hne : sid ≠ "")
    (hget : dictGet v.settings sid = some s) :
    v.buildEmbed = some s.build_embed := by
  unfold View.buildEmbed
  rw [hsel]
  have hie : sid.isEmpty = false := by
    cases hh : sid.isEmpty
    · rfl
    · exact absurd ((String.isEmpty_iff sid).mp hh) hne
  simp [hie, hget]

/-- The embed expression of `build` with no selection is the default
overview embed. -/
theorem buildEmbed_nosel (v : View) (hsel : v.selected_id = none) :
    v.buildEmbed = some default_embed := by
  unfold View.buildEmbed
  rw [hsel]

/-- C5: each `refresh` performs exactly one message operation, and it is an
edit of the existing message precisely when the interaction carries one,
a new ephemeral send precisely when it does not. -/
theorem refresh_edit_or_send :
    ∀ (v : View) (i : Interaction) (sch : Scheduler) (out : View × Scheduler × Effect),
      v.refresh i sch = some out →
      (out.2.2 = Effect.editMessage out.1.embed ↔ i.message.isSome = true) ∧
      (out.2.2 = Effect.sendMessage out.1.embed true ↔ i.message = none) := by
  intro v i sch out h
  obtain ⟨vb, hb, h1, h2, h3⟩ := refresh_eq v i sch out h
  have hemb : out.1.embed = vb.embed := by rw [h1]
  rw [h3, hemb]
  cases i.message <;> simp

/-- Witness for C5: an interaction that carries a message gets an edit. -/
theorem refresh_edit_or_send_witness :
    pendingRefreshOut.2.2 = Effect.editMessage pendingRefreshOut.1.embed :=
  (refresh_edit_or_send pendingView msgInteraction ⟨[false]⟩ pendingRefreshOut
    (by decide)).1.mpr (by decide)

/-- C6: `build` sets the embed to the selected setting's embed when a
setting id is selected (and found), and to the default overview embed when
the selected id is null. -/
theorem build_embed_selected_or_default :
    ∀ (v v2 : View),
      (v.selected_id = none → v.build = some v2 → v2.embed = some default_embed) ∧
      (∀ sid s, v.selected_id = some sid → sid ≠ "" →
        dictGet v.settings sid = some s →
        v.build = some v2 → v2.embed = some s.build_embed) := by
  intro v v2
  constructor
  · intro hsel hb
    obtain ⟨items, e, _, he, hv⟩ := build_eq v v2 hb
    rw [buildEmbed_nosel v hsel] at he
    subst hv
    rw [← Option.some.inj he]
  · intro sid s hsel hne hget hb
    obtain ⟨items, e, _, he, hv⟩ := build_eq v v2 hb
    rw [buildEmbed_some v sid s hsel hne hget] at he
    subst hv
    rw [← Option.some.inj he]

/-- Witness for C6: building the sample view with "clicker" selected
yields the clicker embed. -/
theorem build_embed_selected_or_default_witness :
    builtSample.embed = some (Setting.build_embed (.clicker 0)) :=
  (build_embed_selected_or_default sampleView builtSample).2 "clicker" (.clicker 0)
    rfl (by decide) (by decide) (by decide)

/-- C4: for an id present in the settings dict, `select_parameter` stores
it as the selected id, and the rebuild done by the ensuing refresh gives
that setting's embed and that setting's action controls. -/
theorem select_parameter_selects :
    ∀ (v : View) (i : Interaction) (vals : List String) (sid : String) (s : Setting)
      (sch : Scheduler) (out : View × Scheduler × Effect),
      vals.head? = some sid →
      dictGet v.settings sid = some s →
      sid ≠ "" →
      View.select_parameter v i vals sch = some out →
      out.1.selected_id = some sid ∧
      out.1.embed = some s.build_embed ∧
      out.1.items = s.build_action ++
        [Item.select (v.settings.map fun p => p.2.build_option (p.1 == sid))
          .selectParameter] := by
  intro v i vals sid s sch out hhead hget hne h
  simp only [View.select_parameter, bind, Option.bind_eq_some] at h
  obtain ⟨val, hval, href⟩ := h
  rw [hhead] at hval
  obtain rfl := Option.some.inj hval
  obtain ⟨vb, hb, h1, h2, h3⟩ := refresh_eq _ i sch out href
  obtain ⟨items, e, hi, he, hv⟩ := build_eq _ vb hb
  rw [build_items_some { v with selected_id := some sid } sid s rfl hget] at hi
  rw [buildEmbed_some { v with selected_id := some sid } sid s rfl hne hget] at he
  have hitems := (Option.some.inj hi).symm
  have hemb := (Option.some.inj he).symm
  subst hv
  refine ⟨?_, ?_, ?_⟩ <;> simp [h1, hitems, hemb]

/-- Witness for C4: selecting "toggle" on the unselected sample view stores
the id and rebuilds the toggle embed. -/
theorem select_parameter_selects_witness :
    selOut.1.selected_id = some "toggle" ∧
    selOut.1.embed = some (Setting.build_embed (.toggle false)) := by
  have h := select_parameter_selects noselView msgInteraction ["toggle"] "toggle"
    (.toggle false) ⟨[]⟩ selOut rfl (by decide) (by decide) (by decide)
  exact ⟨h.1, h.2.1⟩

/-- C7: after `_build_items`, the action-control items are exactly those of
the selected setting (none when nothing is selected); every setting
contributes exactly one selector option; an option is marked default
precisely when its key is the selected id, so with unique keys the selected
setting's option is the only default one. -/
theorem build_items_selected_dispatch :
    (∀ (v : View) (sid : String) (s : Setting) (items : List Item),
      v.selected_id = some sid →
      dictGet v.settings sid = some s →
      v.build_items = some items →
      items = s.build_action ++
        [Item.select (v.settings.map fun p => p.2.build_option (p.1 == sid))
          .selectParameter] ∧
      (v.settings.map fun p => p.2.build_option (p.1 == sid)).length =
        v.settings.length ∧
      (∀ p ∈ v.settings, ((p.2.build_option (p.1 == sid)).default = true ↔ p.1 = sid)) ∧
      ((v.settings.map Prod.fst).Nodup → sid ∈ v.settings.map Prod.fst →
        ((v.settings.map fun p => p.2.build_option (p.1 == sid)).filter
          fun o => o.default).length = 1)) ∧
    (∀ (v : View) (items : List Item),
      v.selected_id = none →
      v.build_items = some items →
      items = [Item.select (v.settings.map fun p => p.2.build_option false)
        .selectParameter] ∧
      ∀ p ∈ v.settings, (p.2.build_option false).default = false) := by
  constructor
  · intro v sid s items hsel hget hi
    rw [build_items_some v sid s hsel hget] at hi
    refine ⟨(Option.some.inj hi).symm, by simp, ?_, ?_⟩
    · intro p _
      simp [Setting.build_option]
    · intro hnodup hmem
      rw [← List.countP_eq_length_filter, List.countP_map]
      show List.countP (fun p : String × Setting => p.1 == sid) v.settings = 1
      rw [show (fun p : String × Setting => p.1 == sid) =
        ((fun x => x == sid) ∘ Prod.fst) from rfl]
      rw [← List.countP_map]
      exact List.count_eq_one_of_mem hnodup hmem
  · intro v items hsel hi
    rw [build_items_nosel v hsel] at hi
    refine ⟨(Option.some.inj hi).symm, ?_⟩
    intro p _
    rfl

/-- Witness for C7: in the sample view (three settings, "clicker"
selected), exactly one option is marked default. -/
theorem build_items_selected_dispatch_witness :
    ((sampleView.settings.map fun p => p.2.build_option (p.1 == "clicker")).filter
      fun o => o.default).length = 1 :=
  (build_items_selected_dispatch.1 sampleView "clicker" (.clicker 0) itemsOut rfl
    (by decide) (by decide)).2.2.2 (by decide) (by decide)

/-- Replacing the entry under key `k` leaves `find?` for `k` at `(k, v)`
when some entry with key `k` exists. -/
theorem replace_find_self (d : List (String × Setting)) (k : String) (v : Setting)
    (h : d.any (fun p => p.1 == k) = true) :
    (d.map fun p => if p.1 == k then (k, v) else p).find? (fun p => p.1 == k) =
      some (k, v) := by
  induction d with
  | nil => simp at h
  | cons p tl ih =>
    simp only [List.any_cons, Bool.or_eq_true] at h
    by_cases hp : (p.1 == k) = true
    · rw [List.map_cons, if_pos hp, List.find?_cons]
      simp
    · have htl : tl.any (fun p => p.1 == k) = true := by
        rcases h with h | h
        · exact absurd h hp
        · exact h
      rw [List.map_cons, if_neg hp, List.find?_cons]
      simp only [hp]
      exact ih htl

/-- Replacing the entry under key `k` does not change `find?` for any other
key. -/
theorem replace_find_ne (d : List (String × Setting)) (k : String) (v : Setting)
    (k2 : String) (hne : k2 ≠ k) :
    (d.map fun p => if p.1 == k then (k, v) else p).find? (fun p => p.1 == k2) =
      d.find? (fun p => p.1 == k2) := by
  induction d with
  | nil => rfl
  | cons p tl ih =>
    rw [List.map_cons]
    by_cases hp : (p.1 == k) = true
    · rw [if_pos hp, List.find?_cons, List.find?_cons]
      have hpk : p.1 = k := by simpa using hp
      have h1 : ((k, v).1 == k2) = false := by
        simp only [beq_eq_false_iff_ne, ne_eq]
        exact fun hh => hne hh.symm
      have h2 : (p.1 == k2) = false := by
        simp only [beq_eq_false_iff_ne, ne_eq, hpk]
        exact fun hh => hne hh.symm
      simp only [h1, h2]
      exact ih
    · rw [if_neg hp, List.find?_cons, List.find?_cons]
      by_cases hq : (p.1 == k2) = true
      · simp only [hq]
      · simp only [hq]
        exact ih

/-- Python `d[k] = v` then `d[k]` reads back `v`, when `k` was already a
key. -/
theorem dictGet_insert_self (d : List (String × Setting)) (k : String) (v s : Setting)
    (h : dictGet d k = some s) : dictGet (dictInsert d k v) k = some v := by
  have hany : d.any (fun p => p.1 == k) = true := by
    unfold dictGet at h
    cases hf : d.find? (fun p => p.1 == k) with
    | none => rw [hf] at h; simp at h
    | some q =>
      rw [List.any_eq_true]
      exact ⟨q, List.mem_of_find?_eq_some hf,
        List.find?_some (p := fun q2 : String × Setting => q2.1 == k) hf⟩
  unfold dictInsert
  rw [if_pos hany]
  unfold dictGet
  rw [replace_find_self d k v hany]
  rfl

/-- Python `d[k] = v` does not change `d[k2]` for `k2 ≠ k`. -/
theorem dictGet_insert_ne (d : List (String × Setting)) (k : String) (v : Setting)
    (k2 : String) (hne : k2 ≠ k) : dictGet (dictInsert d k v) k2 = dictGet d k2 := by
  unfold dictInsert
  split
  · unfold dictGet
    rw [replace_find_ne d k v k2 hne]
  · unfold dictGet
    rw [List.find?_append]
    have hsing : List.find? (fun p => p.1 == k2) [(k, v)] = none := by
      rw [List.find?_cons]
      have h1 : ((k, v).1 == k2) = false := by
        simp only [beq_eq_false_iff_ne, ne_eq]
        exact fun hh => hne hh.symm
      simp [h1]
    rw [hsing, Option.or_none]

/-- C3: invoking a setting's activation callback changes only that
setting's own entry in the settings dict (to its `action_update`),
performs exactly that setting's store writes, leaves every other setting
and the selection untouched, and awaits `view.refresh` exactly once. -/
theorem action_mutates_only_self :
    ∀ (v : View) (i : Interaction) (sch : Scheduler) (sid : String) (s : Setting)
      (out : View × Scheduler × List Effect × List DbWrite),
      dictGet v.settings sid = some s →
      v.runSettingAction i sch sid = some out →
      out.2.2.1.length = 1 ∧
      dictGet out.1.settings sid = some s.action_update.1 ∧
      (∀ k2, k2 ≠ sid → dictGet out.1.settings k2 = dictGet v.settings k2) ∧
      out.2.2.2 = s.action_update.2 ∧
      out.1.selected_id = v.selected_id := by
  intro v i sch sid s out hget h
  simp only [View.runSettingAction, bind, Option.bind_eq_some, pure,
    Option.some.injEq] at h
  obtain ⟨s0, hs0, r, hr, hout⟩ := h
  rw [hget] at hs0
  obtain rfl := Option.some.inj hs0
  obtain ⟨vb, hb, h1, h2, h3⟩ := refresh_eq _ i sch r hr
  have hbf := build_fields _ vb hb
  have hset : r.1.settings = dictInsert v.settings sid s.action_update.1 := by
    rw [h1]
    exact hbf.2.1
  have hsel : r.1.selected_id = v.selected_id := by
    rw [h1]
    exact hbf.2.2
  subst hout
  refine ⟨rfl, ?_, ?_, rfl, hsel⟩
  · rw [hset]
    exact dictGet_insert_self v.settings sid s.action_update.1 s hget
  · intro k2 hk2
    rw [hset]
    exact dictGet_insert_ne v.settings sid s.action_update.1 k2 hk2

/-- Witness for C3: clicking the clicker increments only the clicker's
counter; the toggle entry is untouched and exactly one refresh ran. -/
theorem action_mutates_only_self_witness :
    actionOut.2.2.1.length = 1 ∧
    dictGet actionOut.1.settings "clicker" = some (.clicker 1) ∧
    dictGet actionOut.1.settings "toggle" = dictGet sampleView.settings "toggle" := by
  have h := action_mutates_only_self sampleView msgInteraction ⟨[]⟩ "clicker"
    (.clicker 0) actionOut (by decide) (by decide)
  exact ⟨h.1, h.2.1, h.2.2.1 "toggle" (by decide)⟩

/-- A successfully resolved element carries the id it was keyed under. -/
theorem resolve_id : ∀ (sp : SettingSpec) (v : Setting),
    sp.resolve = some v → v.id = sp.id := by
  intro sp v h
  cases sp with
  | inst s =>
    obtain rfl := Option.some.inj h
    rfl
  | cls c =>
    cases c <;> simp only [SettingSpec.resolve, SettingCls.instantiate] at h <;>
      first
        | (obtain rfl := Option.some.inj h; rfl)
        | cases h

/-- Induction workhorse for `dict_from_settings`: folding fresh ids onto an
accumulator with correct, disjoint keys appends them in order. -/
theorem dict_from_settings_go :
    ∀ (l : List SettingSpec) (acc d : List (String × Setting)),
      (∀ p ∈ acc, p.2.id = p.1) →
      (∀ p ∈ acc, p.1 ∉ l.map SettingSpec.id) →
      (l.map SettingSpec.id).Nodup →
      (l.foldlM (fun d2 s => do
        let v ← s.resolve
        pure (dictInsert d2 s.id v)) acc) = some d →
      (∀ p ∈ d, p.2.id = p.1) ∧
      d.map Prod.fst = acc.map Prod.fst ++ l.map SettingSpec.id := by
  intro l
  induction l with
  | nil =>
    intro acc d hid _ _ h
    rw [List.foldlM_nil] at h
    obtain rfl := Option.some.inj h
    exact ⟨hid, by simp⟩
  | cons sp rest ih =>
    intro acc d hid hdisj hnodup h
    rw [List.foldlM_cons] at h
    simp only [bind, Option.bind_eq_some, pure, Option.some.injEq] at h
    obtain ⟨acc2, ⟨vres, hres, hins⟩, hrest⟩ := h
    have hvid : vres.id = sp.id := resolve_id sp vres hres
    have hfresh : ∀ p ∈ acc, (p.1 == sp.id) = false := by
      intro p hp
      have := hdisj p hp
      simp only [List.map_cons, List.mem_cons, not_or] at this
      simp only [beq_eq_false_iff_ne, ne_eq]
      exact this.1
    have happend : dictInsert acc sp.id vres = acc ++ [(sp.id, vres)] := by
      unfold dictInsert
      rw [if_neg ?_]
      rw [Bool.not_eq_true, List.any_eq_false]
      intro p hp
      simp [hfresh p hp]
    subst hins
    rw [happend] at hrest
    have hnodup2 : (sp.id ∉ rest.map SettingSpec.id) ∧ (rest.map SettingSpec.id).Nodup := by
      rw [List.map_cons, List.nodup_cons] at hnodup
      exact hnodup
    have hmain := ih (acc ++ [(sp.id, vres)]) d ?_ ?_ hnodup2.2 hrest
    · refine ⟨hmain.1, ?_⟩
      rw [hmain.2]
      simp [List.append_assoc]
    · intro p hp
      rcases List.mem_append.mp hp with hp2 | hp2
      · exact hid p hp2
      · simp only [List.mem_singleton] at hp2
        subst hp2
        exact hvid
    · intro p hp
      rcases List.mem_append.mp hp with hp2 | hp2
      · have := hdisj p hp2
        simp only [List.map_cons, List.mem_cons, not_or] at this
        exact this.2
      · simp only [List.mem_singleton] at hp2
        subst hp2
        exact hnodup2.1

/-- C8: under unique ids, `dict_from_settings` maps each id to the setting
carrying exactly that id, in insertion order, and the selector options
built from the dict list those ids in the same order. -/
theorem dict_from_settings_spec :
    ∀ (l : List SettingSpec) (d : List (String × Setting)),
      (l.map SettingSpec.id).Nodup →
      BaseSetting.dict_from_settings l = some d →
      (∀ p ∈ d, p.2.id = p.1) ∧
      d.map Prod.fst = l.map SettingSpec.id ∧
      ∀ (sel : String),
        (d.map fun p => (p.2.build_option (p.1 == sel)).value) =
          l.map SettingSpec.id := by
  intro l d hnodup h
  have hgo := dict_from_settings_go l [] d (by simp) (by simp) hnodup h
  have horder : d.map Prod.fst = l.map SettingSpec.id := by
    rw [hgo.2]
    simp
  refine ⟨hgo.1, horder, ?_⟩
  intro sel
  have hval : (d.map fun p => (p.2.build_option (p.1 == sel)).value) = d.map Prod.fst := by
    apply List.map_congr_left
    intro p hp
    show p.2.id = p.1
    exact hgo.1 p hp
  rw [hval, horder]

/-- Witness for C8: an instance plus a class entry produce the keys
"clicker", "toggle" in insertion order. -/
theorem dict_from_settings_spec_witness :
    dC8.map Prod.fst = ["clicker", "toggle"] :=
  (dict_from_settings_spec [.inst (.clicker 0), .cls .toggle] dC8
    (by decide) (by decide)).2.1

end FixMediaBot
